import Mathlib

/-
Verification of the Lcnc_Logger position logger (src/lcnc_logger.py).

The development shallowly embeds the decision core of the program:
the arc-move geometry computation inlined in MainWindow.log (lines 689-718),
the feed/arc-radius entry check MainWindow.check_lineEdit (lines 549-561),
the composition and document-mutation phases of MainWindow.log (lines 654-740),
the digital and analog edge detection blocks of MainWindow.update
(lines 755-819), and the script save/load region handling of
MainWindow.save (lines 630-643) and MainWindow.openFile (lines 584-603).

Python floats are idealised as real numbers where transcendental functions
are involved (the arc geometry) and as rationals elsewhere; the rendered
text of a numeric value is abstracted by formatter functions carried in the
configuration, since the claims under study do not depend on decimal
formatting.
-/

namespace Lcnc

/-! ## Arc geometry (MainWindow.log lines 689-718) -/

inductive ArcDir
  | cw
  | ccw
  deriving DecidableEq

inductive ArcErr
  | degenerateMove
  | radiusTooSmall (minRadius : ℝ)

/-- Two-argument arctangent in the convention of Python's math.atan2:
atan2 y x is the angle of the point (x, y). -/
noncomputable def atan2 (y x : ℝ) : ℝ := Complex.arg ⟨x, y⟩

/-- Embeds the arc-center computation inlined in MainWindow.log
(src/lcnc_logger.py lines 689-718): dx, dy are end minus start, a zero
chord is rejected, a radius smaller than half the chord is rejected
carrying the minimum feasible radius, and otherwise the center offset is
the chord midpoint plus the offset magnitude in the direction rotated
90 degrees from the travel angle (minus for G2/CW, plus for G3/CCW). -/
noncomputable def arcSolve (s e : ℝ × ℝ) (radius : ℝ) (dir : ArcDir) :
    Except ArcErr (ℝ × ℝ) :=
  let dx := e.1 - s.1
  let dy := e.2 - s.2
  if dx = 0 ∧ dy = 0 then .error .degenerateMove
  else
    let angle := atan2 dy dx
    let dxMid := dx / 2
    let dyMid := dy / 2
    let distance := Real.sqrt (dx ^ 2 + dy ^ 2)
    if radius < distance / 2 then .error (.radiusTooSmall (distance / 2))
    else
      let centerOffset := Real.sqrt (radius ^ 2 - (distance / 2) ^ 2)
      let offsetAngle :=
        match dir with
        | .cw => angle - Real.pi / 2
        | .ccw => angle + Real.pi / 2
      .ok (dxMid + centerOffset * Real.cos offsetAngle,
           dyMid + centerOffset * Real.sin offsetAngle)

/-- Length of the chord from s to e, as the source computes it. -/
noncomputable def chordDistance (s e : ℝ × ℝ) : ℝ :=
  Real.sqrt ((e.1 - s.1) ^ 2 + (e.2 - s.2) ^ 2)

/-- Written from the specification text for the success case of the solver:
midpoint plus centerOffsetMagnitude times (cos th, sin th) with
th = travelAngle -pi/2 for CW and +pi/2 for CCW. -/
noncomputable def specCenterOffset (s e : ℝ × ℝ) (radius : ℝ) (dir : ArcDir) :
    ℝ × ℝ :=
  let dx := e.1 - s.1
  let dy := e.2 - s.2
  let midpoint := (dx / 2, dy / 2)
  let travelAngle := atan2 dy dx
  let distance := Real.sqrt (dx ^ 2 + dy ^ 2)
  let mag := Real.sqrt (radius ^ 2 - (distance / 2) ^ 2)
  let th :=
    match dir with
    | .cw => travelAngle - Real.pi / 2
    | .ccw => travelAngle + Real.pi / 2
  (midpoint.1 + mag * Real.cos th, midpoint.2 + mag * Real.sin th)

/-! ## Digital edge detection (MainWindow.update lines 755-766 and 767-779)

The digital-input and digital-output blocks are textually parallel; both are
embedded by digitalStep.  activeHigh is the trigger-logic combo
(dinLogic/doutLogic currentData equal to the string true), value the sampled
bit, latch the per-channel flag dinLog/doutLog.  The result is the pair
(shouldLog, new latch). -/

def digitalStep (activeHigh enabled value latch : Bool) : Bool × Bool :=
  let inLogged := value == activeHigh
  if inLogged && enabled && !latch then (true, true)
  else if !inLogged && latch then (false, false)
  else (false, latch)

/-- Number of samples of the sequence on which the digital channel fires,
threading the latch exactly as the polling loop does. -/
def digitalFires (activeHigh enabled latch : Bool) : List Bool → Nat
  | [] => 0
  | v :: vs =>
      let r := digitalStep activeHigh enabled v latch
      (if r.1 then 1 else 0) + digitalFires activeHigh enabled r.2 vs

/-- Written from the specification text: the number of transitions from
not-logged-state to logged-state in a boolean sequence, given the state
prev before the first sample. -/
def risingEdges (prev : Bool) : List Bool → Nat
  | [] => 0
  | b :: bs => (if b && !prev then 1 else 0) + risingEdges b bs

/-! ## Analog edge detection (MainWindow.update lines 781-799 and 800-819)

The analog-input and analog-output blocks are textually parallel; both are
embedded by analogStep.  The result is none when the block falls through to
the misconfiguration branch (threshold fields painted yellow, nothing else
happens), and some (shouldLog, new latch) otherwise. -/

inductive Cmp
  | gt
  | lt
  deriving DecidableEq

structure AnalogCfg where
  onLogic : Cmp
  onValue : ℚ
  offValue : ℚ
  deriving DecidableEq

def analogStep (c : AnalogCfg) (enabled : Bool) (v : ℚ) (latch : Bool) :
    Option (Bool × Bool) :=
  if c.onLogic = .gt ∧ c.onValue > c.offValue then
    some (if v > c.onValue ∧ enabled ∧ ¬latch then (true, true)
      else if v < c.offValue ∧ latch then (false, false)
      else (false, latch))
  else if c.onLogic = .lt ∧ c.onValue < c.offValue then
    some (if v < c.onValue ∧ enabled ∧ ¬latch then (true, true)
      else if v > c.offValue ∧ latch then (false, false)
      else (false, latch))
  else none

/-- Run the analog block over a sample sequence, threading the latch; each
entry of the result is none for a misconfiguration report and some fire
otherwise. -/
def analogRun (c : AnalogCfg) (enabled : Bool) (latch : Bool) :
    List ℚ → List (Option Bool)
  | [] => []
  | v :: vs =>
      match analogStep c enabled v latch with
      | none => none :: analogRun c enabled latch vs
      | some (fire, latch2) => some fire :: analogRun c enabled latch2 vs

/-- Valid threshold ordering for the configured on-comparator (the condition
guarding the two non-yellow branches of the analog blocks). -/
def acValid (c : AnalogCfg) : Prop :=
  match c.onLogic with
  | .gt => c.onValue > c.offValue
  | .lt => c.onValue < c.offValue

/-- The sampled value satisfies the on-comparator against the on threshold. -/
def satOn (c : AnalogCfg) (v : ℚ) : Bool :=
  match c.onLogic with
  | .gt => decide (v > c.onValue)
  | .lt => decide (v < c.onValue)

/-- The sampled value satisfies the complementary comparator against the off
threshold. -/
def satOff (c : AnalogCfg) (v : ℚ) : Bool :=
  match c.onLogic with
  | .gt => decide (v < c.offValue)
  | .lt => decide (v > c.offValue)

/-! ## Line-edit validation (MainWindow.check_lineEdit, lines 549-561)

A line edit's content either is empty, fails float parsing, or parses to a
number q (carrying its raw text s).  The styles correspond to the
background colors the source assigns; MainWindow.log treats anything other
than white as an error. -/

inductive LEText
  | empty
  | invalid (s : String)
  | num (q : ℚ) (s : String)

def LEText.text : LEText → String
  | .empty => ""
  | .invalid s => s
  | .num _ s => s

inductive Style
  | yellow
  | red
  | white
  deriving DecidableEq

/-- Embeds MainWindow.check_lineEdit.  Note the source's first condition is
`not lineEdit.text() or float(lineEdit.text() == 0)`: the subexpression
`lineEdit.text() == 0` compares a string with the integer 0, which is always
False, so `float(...)` is 0.0 and falsy, and the first branch reduces to the
emptiness test alone.  A parseable zero therefore reaches the final white
case. -/
def check_lineEdit : LEText → Style
  | .empty => .yellow
  | .invalid _ => .red
  | .num q _ => if q < 0 then .red else .white

/-! ## Log entry composition and document mutation (MainWindow.log, 654-740) -/

inductive MoveType
  | g0
  | g1
  | g2
  | g3
  deriving DecidableEq

def MoveType.gstr : MoveType → String
  | .g0 => "G0"
  | .g1 => "G1"
  | .g2 => "G2"
  | .g3 => "G3"

def axesLetters : List String := ["X", "Y", "Z", "A", "B", "C", "U", "V", "W"]

def letterOf (i : Nat) : String := axesLetters.getD i ""

/-- Configuration visible to one MainWindow.log call.  axisChecked i holds
when axis i exists and its checkbox is checked; posVal i is the numeric
value displayed in the axis position label (the label text and its float
parse are identified); fmtQ renders a displayed value back to its label
text and fmtIJ renders a computed arc offset at the configured precision.
The screenshot feature is disabled, as the claims do not concern it. -/
structure LogCfg where
  moveTypeEnable : Bool
  moveType : MoveType
  feed : LEText
  arcRadius : LEText
  comment : String
  axisChecked : Nat → Bool
  posVal : Nat → ℚ
  fmtQ : ℚ → String
  fmtIJ : ℝ → String

/-- The enabled-axis index list, in fixed axis order (log lines 662-665). -/
def LogCfg.axes (c : LogCfg) : List Nat := (List.range 9).filter c.axisChecked

/-- Mutable state MainWindow.log reads and writes: the main log list widget
gcodeLW, lastPosition, and the insertion cursor logToLine. -/
structure DocState where
  doc : List String
  lastPosition : List ℚ
  logToLine : Option Nat

inductive LogErr
  | missingFeedRate
  | missingArcRadius
  | noPriorPosition
  | degenerateMove
  | radiusTooSmall (minRadius : ℝ)

/-- Outcome of a log call: a normal value, a clean early return after an
error message box, or an uncaught Python exception. -/
inductive Outcome (α : Type)
  | ok (a : α)
  | aborted
  | crashed

/-- Embeds the composition phase of MainWindow.log (lines 662-726),
returning the message boxes shown and the assembled gcode token list.
In move-type mode the tokens are the move word, one token per enabled axis,
F plus the raw feed text for G1/G2/G3, the arc I/J token for G2/G3, and the
comment token; errors return early with nothing assembled.  After the
NoPriorPosition message box the source has no return statement (unlike
every other error branch), so execution falls through to
`currentPosition[0] - self.lastPosition[0]`, which raises an uncaught
IndexError when lastPosition (or currentPosition) lacks the entry; this is
the crashed outcome.  In simple mode the tokens are the comma-joined axis
values followed by the comment. -/
noncomputable def gcodeTokens (c : LogCfg) (st : DocState) :
    List LogErr × Outcome (List String) :=
  let axes := c.axes
  let currentPosition := axes.map c.posVal
  if c.moveTypeEnable then
    let base := [c.moveType.gstr ++ " "] ++
      axes.map (fun a => letterOf a ++ c.fmtQ (c.posVal a) ++ " ")
    let withCmt := fun (ts : List String) =>
      if c.comment ≠ "" then ts ++ [" ;" ++ c.comment] else ts
    if c.moveType = .g1 ∨ c.moveType = .g2 ∨ c.moveType = .g3 then
      if check_lineEdit c.feed ≠ .white then ([.missingFeedRate], .aborted)
      else
        let base2 := base ++ ["F" ++ c.feed.text]
        if c.moveType = .g2 ∨ c.moveType = .g3 then
          if check_lineEdit c.arcRadius ≠ .white then
            ([.missingArcRadius], .aborted)
          else
            let preErrs :=
              if st.lastPosition.length = 0 then [LogErr.noPriorPosition]
              else []
            match currentPosition[0]?, st.lastPosition[0]?,
                  currentPosition[1]?, st.lastPosition[1]? with
            | some c0, some l0, some c1, some l1 =>
                let dx : ℚ := c0 - l0
                let dy : ℚ := c1 - l1
                if dx = 0 ∧ dy = 0 then (preErrs ++ [.degenerateMove], .aborted)
                else
                  match c.arcRadius with
                  | .num radius _ =>
                      let angle := atan2 (dy : ℝ) (dx : ℝ)
                      let dxMid := (dx : ℝ) / 2
                      let dyMid := (dy : ℝ) / 2
                      let distance := Real.sqrt ((dx : ℝ) ^ 2 + (dy : ℝ) ^ 2)
                      if (radius : ℝ) < distance / 2 then
                        (preErrs ++ [.radiusTooSmall (distance / 2)], .aborted)
                      else
                        let centerOffset :=
                          Real.sqrt ((radius : ℝ) ^ 2 - (distance / 2) ^ 2)
                        let offsetAngle :=
                          if c.moveType = .g2 then angle - Real.pi / 2
                          else angle + Real.pi / 2
                        let i := dxMid + centerOffset * Real.cos offsetAngle
                        let j := dyMid + centerOffset * Real.sin offsetAngle
                        (preErrs,
                         .ok (withCmt (base2 ++
                           [" I" ++ c.fmtIJ i ++ " J" ++ c.fmtIJ j])))
                  | _ => (preErrs, .crashed)
            | _, _, _, _ => (preErrs, .crashed)
        else ([], .ok (withCmt base2))
    else ([], .ok (withCmt base))
  else
    ([], .ok (axes.map (fun a => c.fmtQ (c.posVal a) ++ ", ") ++ [c.comment]))

/-- Document mutation of a successful log (lines 727-734): with an insertion
cursor the new line is inserted at the cursor index and the original line,
now one below, is removed; otherwise the line is appended.  (The model
covers cursor indices within the document, matching the claims.) -/
def applyDoc (doc : List String) (cursor : Option Nat) (line : String) :
    List String :=
  match cursor with
  | some k => (doc.insertIdx k line).eraseIdx (k + 1)
  | none => doc ++ [line]

/-- Embeds MainWindow.log: compose the tokens, then on success join them,
write the line into the document, record the enabled-axis values as
lastPosition and clear the cursor (lines 727-738).  The second component of
the ok payload is the composed line. -/
noncomputable def log (c : LogCfg) (st : DocState) :
    List LogErr × Outcome (DocState × String) :=
  match gcodeTokens c st with
  | (errs, .aborted) => (errs, .aborted)
  | (errs, .crashed) => (errs, .crashed)
  | (errs, .ok tokens) =>
      let line := String.join tokens
      (errs, .ok (⟨applyDoc st.doc st.logToLine line,
                    c.axes.map c.posVal, none⟩, line))

/-! ## One digital-channel slice of a polling tick (update lines 755-766) -/

/-- Result of the digital-channel block of one tick: the document state
after the block, the channel latch, the message boxes raised, and whether
an exception escaped the tick. -/
structure TickOut where
  st : DocState
  latch : Bool
  errs : List LogErr
  crashed : Bool

/-- Embeds one digital-channel block of MainWindow.update: on a qualifying
edge the block calls self.log() and then sets the latch; the latch
assignment is reached even when log returned after an error message, but
not when log raised, since the exception propagates.  On the opposite edge
the latch clears without logging; otherwise nothing happens. -/
noncomputable def dinTick (activeHigh value enabled latch : Bool)
    (c : LogCfg) (st : DocState) : TickOut :=
  let inLogged := value == activeHigh
  if inLogged && enabled && !latch then
    match log c st with
    | (errs, .ok (st2, _)) => ⟨st2, true, errs, false⟩
    | (errs, .aborted) => ⟨st, true, errs, false⟩
    | (errs, .crashed) => ⟨st, latch, errs, true⟩
  else if !inLogged && latch then ⟨st, false, [], false⟩
  else ⟨st, latch, [], false⟩

/-! ## Script document save and load (MainWindow.save 630-643, openFile 584-603)

The file text written by save is a newline-join of lines; openFile reads it
back line by line.  Both are modelled at the line level (list-widget items
contain no newline characters).  Both optional regions are taken as
enabled, matching the claim under study. -/

structure ScriptDoc where
  prescript : List String
  gcode : List String
  postscript : List String
  deriving DecidableEq

/-- Embeds MainWindow.save with both region checkboxes checked.  The text is
`;prescript_start\n` + join(prescript) + `\n;prescript_end\n` + join(gcode)
+ `\n;postscript_start\n` + join(postscript) + `\n;postscript_end\n`; this
definition lists its lines.  A region saved while empty contributes the
single empty line left between the enclosing newlines. -/
def serializeLines (d : ScriptDoc) : List String :=
  [";prescript_start"] ++
    (if d.prescript = [] then [""] else d.prescript) ++
    [";prescript_end"] ++
    (if d.gcode = [] then [""] else d.gcode) ++
    [";postscript_start"] ++
    (if d.postscript = [] then [""] else d.postscript) ++
    [";postscript_end"]

inductive Region
  | prescript
  | log
  | postscript
  deriving DecidableEq

/-- Appending one classified line to its region list. -/
def addLine (r : Region) (d : ScriptDoc) (line : String) : ScriptDoc :=
  match r with
  | .prescript => ⟨d.prescript ++ [line], d.gcode, d.postscript⟩
  | .log => ⟨d.prescript, d.gcode ++ [line], d.postscript⟩
  | .postscript => ⟨d.prescript, d.gcode, d.postscript ++ [line]⟩

/-- Embeds the per-line classification of MainWindow.openFile (lines
586-603), with both region checkboxes checked: the four marker lines only
switch the current region, every other line is appended to the region the
scan is currently in. -/
def loadStep (acc : ScriptDoc × Region) (line : String) : ScriptDoc × Region :=
  if line = ";prescript_start" then (acc.1, .prescript)
  else if line = ";prescript_end" then (acc.1, .log)
  else if line = ";postscript_start" then (acc.1, .postscript)
  else if line = ";postscript_end" then (acc.1, .log)
  else (addLine acc.2 acc.1 line, acc.2)

/-- Embeds MainWindow.openFile: forward scan of the lines starting from
empty lists in the log region. -/
def loadLines (lines : List String) : ScriptDoc :=
  (lines.foldl loadStep (⟨[], [], []⟩, Region.log)).1

/-- The predicate used for the amended round-trip statement: no line of the
list is one of the four literal region markers. -/
def markerFree (ls : List String) : Prop :=
  ∀ s ∈ ls, s ≠ ";prescript_start" ∧ s ≠ ";prescript_end" ∧
    s ≠ ";postscript_start" ∧ s ≠ ";postscript_end"

instance (ls : List String) : Decidable (markerFree ls) := by
  unfold markerFree
  infer_instance

/-! ## Theorems -/

/-- Helper: one enabled digital step fires exactly on entering the logged
state while unlatched, and afterwards the latch equals the logged-state
flag of the sample. -/
theorem digitalStep_char : ∀ a v l : Bool,
    digitalStep a true v l = ((v == a) && !l, v == a) := by decide

/-- Helper: with the channel enabled the fire count from any starting latch
equals the rising-edge count of the logged-state sequence. -/
theorem digitalFires_eq (a : Bool) :
    ∀ (vs : List Bool) (l : Bool),
      digitalFires a true l vs = risingEdges l (vs.map (fun v => v == a)) := by
  intro vs
  induction vs with
  | nil => intro l; rfl
  | cons v vs ih =>
      intro l
      simp only [digitalFires, risingEdges, List.map_cons, digitalStep_char, ih]

/-- C4: for either trigger logic and any enabled sample sequence, the number
of fires equals the number of not-logged-to-logged transitions (from the
initial unlatched state); an unchanged in-logged value never fires again,
and leaving the logged state only clears the latch without firing. -/
theorem digital_edge_firing (a : Bool) (vs : List Bool) :
    digitalFires a true false vs =
      risingEdges false (vs.map (fun v => v == a)) ∧
    (∀ v l, (digitalStep a true v l).1 = ((v == a) && !l)) ∧
    (∀ v l, (v == a) = false → digitalStep a true v l = (false, false)) := by
  refine ⟨digitalFires_eq a vs false, ?_, ?_⟩
  · intro v l
    rw [digitalStep_char]
  · intro v l h
    cases a <;> cases v <;> cases l <;> simp_all [digitalStep]

/-- C5: on a validly configured analog channel the step reports no
configuration error, fires exactly when the on-comparator holds against the
on threshold while unlatched, latches then, and unlatches exactly when the
complementary comparator holds against the off threshold while latched; the
example channel fires exactly once on [1, 6, 6, 1], at the first 6. -/
theorem analog_latch_behavior (c : AnalogCfg) (hv : acValid c) (v : ℚ)
    (latch : Bool) :
    analogStep c true v latch =
      some (satOn c v && !latch,
        if satOn c v && !latch then true
        else if satOff c v && latch then false else latch) ∧
    analogRun ⟨.gt, 5, 2⟩ true false [1, 6, 6, 1] =
      [some false, some true, some false, some false] := by
  constructor
  · obtain ⟨cl, von, voff⟩ := c
    cases cl <;>
      simp only [acValid] at hv <;>
      cases latch <;>
      simp [analogStep, satOn, satOff, hv] <;>
      split_ifs <;>
      simp_all
  · decide

/-- Witness for C5 at a concrete valid configuration and sample. -/
theorem analog_latch_behavior_w :
    analogStep ⟨Cmp.gt, 5, 2⟩ true 6 false = some (true, true) := by
  rw [(analog_latch_behavior ⟨Cmp.gt, 5, 2⟩ (by norm_num [acValid]) 6 false).1]
  decide

/-- Helper: a misconfigured channel always lands in the yellow branch. -/
theorem analogStep_none (c : AnalogCfg) (h : ¬ acValid c) (enabled : Bool)
    (v : ℚ) (latch : Bool) : analogStep c enabled v latch = none := by
  obtain ⟨cl, von, voff⟩ := c
  cases cl <;> simp only [acValid] at h <;> simp [analogStep, h]

/-- C6: a misconfigured analog channel reports the configuration error on
every sample of every sequence and never fires. -/
theorem analog_misconfigured (c : AnalogCfg) (h : ¬ acValid c)
    (enabled : Bool) (vs : List ℚ) (latch : Bool) :
    analogRun c enabled latch vs = vs.map (fun _ => (none : Option Bool)) := by
  induction vs with
  | nil => rfl
  | cons v vs ih => simp [analogRun, analogStep_none c h, ih]

/-- Witness for C6 at the specification's example misconfiguration. -/
theorem analog_misconfigured_w :
    analogRun ⟨Cmp.gt, 2, 5⟩ true false [1, 6, 6, 1] =
      [none, none, none, none] := by
  rw [analog_misconfigured ⟨Cmp.gt, 2, 5⟩ (by norm_num [acValid]) true
    [1, 6, 6, 1] false]
  rfl

/-- Helper: the chord has length zero exactly when both components of the
travel vector vanish. -/
theorem chordDistance_eq_zero (s e : ℝ × ℝ) :
    chordDistance s e = 0 ↔ e.1 - s.1 = 0 ∧ e.2 - s.2 = 0 := by
  unfold chordDistance
  constructor
  · intro h
    have h2 : (e.1 - s.1) ^ 2 + (e.2 - s.2) ^ 2 ≤ 0 := Real.sqrt_eq_zero'.mp h
    constructor
    · nlinarith [sq_nonneg (e.1 - s.1), sq_nonneg (e.2 - s.2)]
    · nlinarith [sq_nonneg (e.1 - s.1), sq_nonneg (e.2 - s.2)]
  · rintro ⟨h1, h2⟩
    rw [h1, h2]
    simp

/-- C2: the solver rejects a zero chord as DegenerateMove, rejects a radius
below half the chord as RadiusTooSmall carrying that minimum, and otherwise
returns the centre offset described by the specification formula; the
semicircle example yields I=5, J=0. -/
theorem arc_solver_cases (s e : ℝ × ℝ) (radius : ℝ) (hr : 0 < radius)
    (dir : ArcDir) :
    (chordDistance s e = 0 →
      arcSolve s e radius dir = .error .degenerateMove) ∧
    (chordDistance s e ≠ 0 → radius < chordDistance s e / 2 →
      arcSolve s e radius dir =
        .error (.radiusTooSmall (chordDistance s e / 2))) ∧
    (chordDistance s e ≠ 0 → ¬ radius < chordDistance s e / 2 →
      arcSolve s e radius dir = .ok (specCenterOffset s e radius dir)) ∧
    arcSolve (0, 0) (10, 0) 5 .cw = .ok (5, 0) := by
  refine ⟨?_, ?_, ?_, ?_⟩
  · intro h
    rw [chordDistance_eq_zero] at h
    simp only [arcSolve]
    rw [if_pos h]
  · intro h h2
    rw [Ne, chordDistance_eq_zero] at h
    unfold chordDistance at h2 ⊢
    simp only [arcSolve]
    rw [if_neg h, if_pos h2]
  · intro h h2
    rw [Ne, chordDistance_eq_zero] at h
    unfold chordDistance at h2
    simp only [arcSolve, specCenterOffset]
    rw [if_neg h, if_neg h2]
  · have hs : Real.sqrt (100 : ℝ) = 10 := by
      rw [show (100 : ℝ) = 10 ^ 2 by norm_num]
      exact Real.sqrt_sq (by norm_num)
    simp only [arcSolve]
    norm_num [hs, Real.sqrt_zero]

/-- Witness for C2 at the degenerate example of the specification. -/
theorem arc_solver_cases_w :
    arcSolve (0, 0) (0, 0) 1 .cw = .error .degenerateMove := by
  refine (arc_solver_cases (0, 0) (0, 0) 1 one_pos .cw).1 ?_
  simp [chordDistance]

/-! ### Concrete configurations used by the evaluation theorems -/

/-- Renderer for the small values appearing in the concrete runs. -/
def fmtSmall : ℚ → String := fun q =>
  if q = 0 then "0" else if q = 1 then "1" else if q = 2 then "2"
  else if q = 5 then "5" else if q = 10 then "10" else "?"

/-- Arc offsets are never rendered on the paths of the concrete runs that
use this formatter. -/
def fmtNone : ℝ → String := fun _ => ""

/-- A G2 arc compose with valid feed and radius entries, X and Y enabled,
attempted before any successful log of the session. -/
def arcNoPriorCfg : LogCfg :=
  ⟨true, .g2, .num 1 "1", .num 5 "5", "", fun i => decide (i < 2),
    fun _ => 0, fmtSmall, fmtNone⟩

def arcNoPriorState : DocState := ⟨["T0"], [], none⟩

/-- C1 (code bug): an arc compose invoked while lastPosition is empty shows
the NoPriorPosition message box, but the source lacks the return statement
every sibling error branch has (line 688), so execution falls through to
`currentPosition[0] - self.lastPosition[0]` and the tick dies on an
uncaught IndexError; the document is left unmodified only because the
exception propagates before any mutation, and the latch assignment after
self.log() is never reached. -/
theorem arc_no_prior_crash :
    dinTick true true true false arcNoPriorCfg arcNoPriorState =
      ⟨arcNoPriorState, false, [.noPriorPosition], true⟩ := rfl

/-- A G1 compose whose feed entry is the text 0, with only X enabled. -/
def zeroFeedCfg : LogCfg :=
  ⟨true, .g1, .num 0 "0", .empty, "", fun i => decide (i = 0),
    fun _ => 0, fmtSmall, fmtNone⟩

/-- C3 (code bug): the zero-check of check_lineEdit is broken by the
misplaced parenthesis `float(lineEdit.text() == 0)`, so a feed entry of 0
is styled white and the compose succeeds, emitting an F0 token instead of
reporting MissingFeedRate. -/
theorem zero_feed_accepted :
    check_lineEdit (.num 0 "0") = .white ∧
    log zeroFeedCfg ⟨[], [], none⟩ =
      ([], .ok (⟨["G1 X0 F0"], [0], none⟩, "G1 X0 F0")) := ⟨rfl, rfl⟩

/-- A G1 compose with an empty feed entry, with only X enabled. -/
def missingFeedCfg : LogCfg :=
  ⟨true, .g1, .empty, .empty, "", fun i => decide (i = 0),
    fun _ => 0, fmtSmall, fmtNone⟩

def missingFeedState : DocState := ⟨["T1"], [], none⟩

/-- C7 counterexample: an edge-triggered log attempt that ends in the
MissingFeedRate error leaves the document alone but SETS the channel latch
(false before the tick, true after), so EdgeState is not left exactly as it
was before the attempt. -/
theorem error_sets_latch_cex :
    dinTick true true true false missingFeedCfg missingFeedState =
      ⟨missingFeedState, true, [.missingFeedRate], false⟩ := rfl

/-- C7 (amended): when the composer returns after an error message box, the
tick leaves the document, lastPosition and cursor unmodified and finishes
normally (the polling loop continues), but the channel latch still follows
the edge rule, so a fired channel has its latch set rather than left
unmodified; a misconfigured analog channel reports its error without
touching anything.  NoPriorPosition is excepted from the clean abort: it
falls through to an uncaught IndexError (see the C1 theorem). -/
theorem recoverable_error_frame (activeHigh value enabled latch : Bool)
    (c : LogCfg) (st : DocState) (h : (log c st).2 = .aborted) :
    dinTick activeHigh value enabled latch c st =
      ⟨st,
        if (value == activeHigh) && enabled && !latch then true
        else if !(value == activeHigh) && latch then false else latch,
        if (value == activeHigh) && enabled && !latch then (log c st).1
        else [],
        false⟩ ∧
    (∀ ac v l e2, ¬ acValid ac → analogStep ac e2 v l = none) := by
  constructor
  · have hl : log c st = ((log c st).1, Outcome.aborted) := by
      rw [← h]
    simp only [dinTick]
    split_ifs with h1 h2
    · rw [hl]
    · rfl
    · rfl
  · intro ac v l e2 hv
    exact analogStep_none ac hv e2 v l

/-- Witness for C7's amended statement at a concrete erroring configuration
(the latch here clears on the opposite edge, the document is untouched). -/
theorem recoverable_error_frame_w :
    dinTick true false true true missingFeedCfg missingFeedState =
      ⟨missingFeedState, false, [], false⟩ ∧
    analogStep ⟨Cmp.gt, 1, 3⟩ true 0 false = none := by
  have h := recoverable_error_frame true false true true missingFeedCfg
    missingFeedState rfl
  refine ⟨?_, h.2 ⟨Cmp.gt, 1, 3⟩ 0 false true (by norm_num [acValid])⟩
  rw [h.1]
  rfl

/-- Helper: the state a successful log returns is always the cursor-applied
document, the enabled-axis values as lastPosition, and a cleared cursor. -/
theorem log_ok_shape (c : LogCfg) (st : DocState) (errs : List LogErr)
    (st2 : DocState) (line : String)
    (h : log c st = (errs, .ok (st2, line))) :
    st2 = ⟨applyDoc st.doc st.logToLine line, c.axes.map c.posVal, none⟩ := by
  unfold log at h
  rcases hg : gcodeTokens c st with ⟨e0, o0⟩
  rw [hg] at h
  cases o0 with
  | ok ts =>
      simp only [Prod.mk.injEq, Outcome.ok.injEq] at h
      obtain ⟨h1, h2, h3⟩ := h
      rw [← h2, ← h3]
  | aborted => simp at h
  | crashed => simp at h

/-- Helper: insert at k then erase at k+1 replaces the element at k. -/
theorem insert_erase_eq {α : Type} (l : List α) (k : Nat) (x : α)
    (hk : k < l.length) :
    (l.insertIdx k x).eraseIdx (k + 1) = l.take k ++ x :: l.drop (k + 1) := by
  induction l generalizing k with
  | nil => exact absurd hk (by simp)
  | cons a as ih =>
      cases k with
      | zero => simp [List.insertIdx]
      | succ n =>
          simp only [List.insertIdx_succ_cons, List.eraseIdx_cons_succ,
            List.take_succ_cons, List.drop_succ_cons, List.cons_append,
            List.cons.injEq, true_and]
          exact ih n (by simpa using hk)

/-- C9: with the insertion cursor set to a valid index k, a successful log
keeps the document length, puts the composed line at index k, leaves every
other index unchanged and clears the cursor; any successful log without a
cursor appends its line instead. -/
theorem cursor_replace (c : LogCfg) (st : DocState) (k : Nat)
    (hc : st.logToLine = some k) (hk : k < st.doc.length)
    (errs : List LogErr) (st2 : DocState) (line : String)
    (h : log c st = (errs, .ok (st2, line))) :
    st2.doc.length = st.doc.length ∧
    st2.doc[k]? = some line ∧
    (∀ j, j ≠ k → st2.doc[j]? = st.doc[j]?) ∧
    st2.logToLine = none ∧
    (∀ c2 st3 errs2 st4 line2, st3.logToLine = none →
      log c2 st3 = (errs2, .ok (st4, line2)) →
      st4.doc = st3.doc ++ [line2]) := by
  have hs := log_ok_shape c st errs st2 line h
  subst hs
  have htl : (st.doc.take k).length = k := by simp [hk.le]
  have hdoc : applyDoc st.doc st.logToLine line =
      st.doc.take k ++ line :: st.doc.drop (k + 1) := by
    rw [hc]
    exact insert_erase_eq st.doc k line hk
  refine ⟨?_, ?_, ?_, rfl, ?_⟩
  · simp only [hdoc, List.length_append, List.length_cons, List.length_take,
      List.length_drop]
    omega
  · simp only [hdoc]
    rw [List.getElem?_append_right (by omega), htl]
    simp
  · intro j hj
    simp only [hdoc]
    rcases Nat.lt_or_ge j k with hlt | hge
    · rw [List.getElem?_append_left (by omega)]
      exact List.getElem?_take_of_lt hlt
    · have hgt : k < j := lt_of_le_of_ne hge (Ne.symm hj)
      rw [List.getElem?_append_right (by omega), htl]
      obtain ⟨m, rfl⟩ : ∃ m, j = k + 1 + m := ⟨j - (k + 1), by omega⟩
      rw [show k + 1 + m - k = m + 1 by omega]
      rw [List.getElem?_cons_succ, List.getElem?_drop]
  · intro c2 st3 errs2 st4 line2 h3 hok
    have hs2 := log_ok_shape c2 st3 errs2 st4 line2 hok
    rw [hs2]
    simp [applyDoc, h3]

/-- A simple-mode log configuration with no axes enabled. -/
def simpleCfg : LogCfg :=
  ⟨false, .g0, .empty, .empty, "", fun _ => false, fun _ => 0,
    fmtSmall, fmtNone⟩

/-- Witness for C9: replacing at cursor index 0 of a two-line document via a
simple-mode log preserves the document length. -/
theorem cursor_replace_w :
    (⟨["", "b"], [], (none : Option Nat)⟩ : DocState).doc.length =
      (⟨["a", "b"], [], some 0⟩ : DocState).doc.length :=
  (cursor_replace simpleCfg ⟨["a", "b"], [], some 0⟩ 0 rfl (by norm_num) []
    ⟨["", "b"], [], none⟩ "" rfl).1

/-- Simple-mode log with only the Y and Z axes enabled and distinct axis
values (X is 0, Y is 1, Z is 2). -/
def yzCfg : LogCfg :=
  ⟨false, .g0, .empty, .empty, "", fun i => decide (0 < i ∧ i < 3),
    fun i => (i : ℚ), fmtSmall, fmtNone⟩

/-- C10 counterexample: after a successful log with only the Y and Z axes
enabled, lastPosition holds the Y and Z values [1, 2], not the X/Y
coordinate pair [0, 1]; the claim fails for this choice of enabled axes. -/
theorem lastposition_not_xy_cex :
    log yzCfg ⟨[], [], none⟩ =
      ([], .ok (⟨["1, 2, "], [1, 2], none⟩, "1, 2, ")) ∧
    ([1, 2] : List ℚ) ≠ [yzCfg.posVal 0, yzCfg.posVal 1] := by
  refine ⟨rfl, ?_⟩
  decide

/-- C10 (amended): after every successful log, lastPosition holds the list
of enabled-axis values in axis order, which is the X/Y pair exactly when X
and Y are the first two enabled axes; and a successful arc compose feeds
the solver the first two lastPosition entries as start point and the first
two enabled-axis values as end point. -/
theorem lastposition_amended (c : LogCfg) (st : DocState) :
    (∀ errs st2 line, log c st = (errs, .ok (st2, line)) →
      st2.lastPosition = c.axes.map c.posVal) ∧
    (∀ errs ts radius rs, c.moveTypeEnable = true →
      (c.moveType = .g2 ∨ c.moveType = .g3) →
      c.arcRadius = .num radius rs →
      gcodeTokens c st = (errs, .ok ts) →
      ∃ (c0 l0 c1 l1 : ℚ) (i j : ℝ),
        (c.axes.map c.posVal)[0]? = some c0 ∧
        st.lastPosition[0]? = some l0 ∧
        (c.axes.map c.posVal)[1]? = some c1 ∧
        st.lastPosition[1]? = some l1 ∧
        arcSolve ((l0 : ℝ), (l1 : ℝ)) ((c0 : ℝ), (c1 : ℝ)) (radius : ℝ)
          (if c.moveType = .g2 then ArcDir.cw else ArcDir.ccw) =
          .ok (i, j) ∧
        (" I" ++ c.fmtIJ i ++ " J" ++ c.fmtIJ j) ∈ ts) := by
  constructor
  · intro errs st2 line h
    rw [log_ok_shape c st errs st2 line h]
  · intro errs ts radius rs hmt harc hnum hok
    have hmoves : c.moveType = .g1 ∨ c.moveType = .g2 ∨ c.moveType = .g3 :=
      harc.elim (fun h => Or.inr (Or.inl h)) (fun h => Or.inr (Or.inr h))
    simp only [gcodeTokens, hmt, hnum] at hok
    rw [if_pos trivial, if_pos hmoves, if_pos harc] at hok
    split at hok
    · -- feed entry not white: aborted, contradiction
      simp at hok
    · split at hok
      · -- radius entry not white: aborted, contradiction
        simp at hok
      · split at hok
        case _ c0 l0 c1 l1 heq1 heq2 heq3 heq4 =>
          split at hok
          · -- degenerate move: aborted, contradiction
            simp at hok
          case _ hne =>
            split at hok
            case _ hrad =>
              -- radius too small: aborted, contradiction
              simp at hok
            case _ hrad =>
              simp only [Prod.mk.injEq, Outcome.ok.injEq] at hok
              obtain ⟨h1, h2⟩ := hok
              have e1 : (c0 : ℝ) - (l0 : ℝ) = ((c0 - l0 : ℚ) : ℝ) := by
                push_cast
                ring
              have e2 : (c1 : ℝ) - (l1 : ℝ) = ((c1 - l1 : ℚ) : ℝ) := by
                push_cast
                ring
              refine ⟨c0, l0, c1, l1,
                ((c0 - l0 : ℚ) : ℝ) / 2 +
                  Real.sqrt ((radius : ℝ) ^ 2 -
                    (Real.sqrt (((c0 - l0 : ℚ) : ℝ) ^ 2 +
                      ((c1 - l1 : ℚ) : ℝ) ^ 2) / 2) ^ 2) *
                  Real.cos (if c.moveType = .g2 then
                    atan2 ((c1 - l1 : ℚ) : ℝ) ((c0 - l0 : ℚ) : ℝ) -
                      Real.pi / 2
                  else
                    atan2 ((c1 - l1 : ℚ) : ℝ) ((c0 - l0 : ℚ) : ℝ) +
                      Real.pi / 2),
                ((c1 - l1 : ℚ) : ℝ) / 2 +
                  Real.sqrt ((radius : ℝ) ^ 2 -
                    (Real.sqrt (((c0 - l0 : ℚ) : ℝ) ^ 2 +
                      ((c1 - l1 : ℚ) : ℝ) ^ 2) / 2) ^ 2) *
                  Real.sin (if c.moveType = .g2 then
                    atan2 ((c1 - l1 : ℚ) : ℝ) ((c0 - l0 : ℚ) : ℝ) -
                      Real.pi / 2
                  else
                    atan2 ((c1 - l1 : ℚ) : ℝ) ((c0 - l0 : ℚ) : ℝ) +
                      Real.pi / 2),
                heq1, heq2, heq3, heq4, ?_, ?_⟩
              · simp only [arcSolve, e1, e2]
                rw [if_neg (by
                  rw [Rat.cast_eq_zero, Rat.cast_eq_zero]
                  exact hne)]
                rw [if_neg hrad]
                rcases harc with hg | hg <;> simp only [hg] <;> rfl
              · rw [← h2]
                split <;> simp
        · -- an index access failed: crashed, contradiction
          simp at hok

/-- Arc compose with only Y and Z enabled, lastPosition (0, 0), current
first-two-enabled values (10, 0), radius 5: the semicircle case. -/
def arcYZCfg : LogCfg :=
  ⟨true, .g2, .num 1 "1", .num 5 "5", "", fun i => decide (0 < i ∧ i < 3),
    fun i => if i = 1 then 10 else 0, fmtSmall, fmtNone⟩

def arcYZState : DocState := ⟨[], [0, 0], none⟩

/-- Witness for C10's amended statement at a concrete successful arc log. -/
theorem lastposition_amended_w :
    ∃ (c0 l0 c1 l1 : ℚ) (i j : ℝ),
      (arcYZCfg.axes.map arcYZCfg.posVal)[0]? = some c0 ∧
      arcYZState.lastPosition[0]? = some l0 ∧
      (arcYZCfg.axes.map arcYZCfg.posVal)[1]? = some c1 ∧
      arcYZState.lastPosition[1]? = some l1 ∧
      arcSolve ((l0 : ℝ), (l1 : ℝ)) ((c0 : ℝ), (c1 : ℝ)) ((5 : ℚ) : ℝ)
        (if arcYZCfg.moveType = .g2 then ArcDir.cw else ArcDir.ccw) =
        .ok (i, j) ∧
      (" I" ++ arcYZCfg.fmtIJ i ++ " J" ++ arcYZCfg.fmtIJ j) ∈
        ["G2 ", "Y10 ", "Z0 ", "F1", " I J"] := by
  refine (lastposition_amended arcYZCfg arcYZState).2 [] _ 5 "5" rfl
    (Or.inl rfl) rfl ?_
  have hs : Real.sqrt (100 : ℝ) = 10 := by
    rw [show (100 : ℝ) = 10 ^ 2 by norm_num]
    exact Real.sqrt_sq (by norm_num)
  have hax : arcYZCfg.axes = [1, 2] := rfl
  simp only [gcodeTokens, hax]
  norm_num [hs, arcYZCfg, arcYZState, letterOf, axesLetters, LEText.text,
    check_lineEdit, fmtSmall, fmtNone, MoveType.gstr]
  exact ⟨rfl, rfl, rfl, rfl, rfl⟩

/-- C8 counterexample: a document whose prescript region contains the
literal line ;prescript_end does not round-trip — load consumes that line
as a marker, so it disappears from the reloaded prescript. -/
theorem script_roundtrip_cex :
    loadLines (serializeLines ⟨[";prescript_end"], ["a"], ["b"]⟩) ≠
      ⟨[";prescript_end"], ["a"], ["b"]⟩ := by
  decide

/-- Helper: a non-marker line is appended to the currently open region. -/
theorem loadStep_nonmarker (d : ScriptDoc) (r : Region) (line : String)
    (h1 : line ≠ ";prescript_start") (h2 : line ≠ ";prescript_end")
    (h3 : line ≠ ";postscript_start") (h4 : line ≠ ";postscript_end") :
    loadStep (d, r) line = (addLine r d line, r) := by
  simp [loadStep, h1, h2, h3, h4]

/-- Bulk append of classified lines to one region. -/
def appendRegion (r : Region) (d : ScriptDoc) (ls : List String) : ScriptDoc :=
  match r with
  | .prescript => ⟨d.prescript ++ ls, d.gcode, d.postscript⟩
  | .log => ⟨d.prescript, d.gcode ++ ls, d.postscript⟩
  | .postscript => ⟨d.prescript, d.gcode, d.postscript ++ ls⟩

/-- Helper: scanning a block of marker-free lines appends them to the open
region and leaves the region unchanged. -/
theorem foldl_loadStep_markerFree (r : Region) :
    ∀ ls : List String, markerFree ls → ∀ d : ScriptDoc,
      ls.foldl loadStep (d, r) = (appendRegion r d ls, r) := by
  intro ls
  induction ls with
  | nil =>
      intro _ d
      cases r <;> simp [appendRegion]
  | cons line ls ih =>
      intro hm d
      obtain ⟨n1, n2, n3, n4⟩ := hm line (List.mem_cons_self ..)
      have hms : markerFree ls := fun s hs => hm s (List.mem_cons_of_mem _ hs)
      rw [List.foldl_cons, loadStep_nonmarker d r line n1 n2 n3 n4, ih hms]
      cases r <;> simp [appendRegion, addLine]

/-- C8 (amended): for a document whose three regions are non-empty and none
of whose lines equals one of the four literal region markers, loading the
serialized text yields the original document. -/
theorem script_roundtrip (d : ScriptDoc) (h1 : d.prescript ≠ [])
    (h2 : d.gcode ≠ []) (h3 : d.postscript ≠ [])
    (m1 : markerFree d.prescript) (m2 : markerFree d.gcode)
    (m3 : markerFree d.postscript) :
    loadLines (serializeLines d) = d := by
  unfold loadLines serializeLines
  rw [if_neg h1, if_neg h2, if_neg h3]
  have e1 : ∀ (x : ScriptDoc) (r : Region),
      loadStep (x, r) ";prescript_start" = (x, Region.prescript) :=
    fun x r => rfl
  have e2 : ∀ (x : ScriptDoc) (r : Region),
      loadStep (x, r) ";prescript_end" = (x, Region.log) := fun x r => rfl
  have e3 : ∀ (x : ScriptDoc) (r : Region),
      loadStep (x, r) ";postscript_start" = (x, Region.postscript) :=
    fun x r => rfl
  have e4 : ∀ (x : ScriptDoc) (r : Region),
      loadStep (x, r) ";postscript_end" = (x, Region.log) := fun x r => rfl
  simp only [List.foldl_append, List.foldl_cons, List.foldl_nil,
    e1, e2, e3, e4,
    foldl_loadStep_markerFree Region.prescript d.prescript m1,
    foldl_loadStep_markerFree Region.log d.gcode m2,
    foldl_loadStep_markerFree Region.postscript d.postscript m3,
    appendRegion]
  simp

/-- Witness for C8's amended round-trip at a concrete document. -/
theorem script_roundtrip_w :
    loadLines (serializeLines ⟨["p"], ["g"], ["q"]⟩) = ⟨["p"], ["g"], ["q"]⟩ :=
  script_roundtrip ⟨["p"], ["g"], ["q"]⟩ (by decide) (by decide) (by decide)
    (by decide) (by decide) (by decide)

end Lcnc
